import Mathlib

/-!
Verification development for the Law_Firm_Excel_Decision_Counter repository.

The definitions below are a shallow embedding of the Python sources:
  - src/data_processing.py     (extract_decisions_and_cases)
  - src/decision_counter.py    (separate_into_sub_categories, extract_and_write_case_number,
                                proper_ordering_cases_by_case_number, group_identical_decisions)
  - src/main.py                (the subset_1 / subset_2 / subset_3 partitioning)

Python regular expressions are embedded as deterministic character-list matchers that
reproduce the backtracking behaviour of the concrete patterns used by the source
(arguments for the determinisations are given at each definition). DataFrames are
embedded as a list of column names plus a list of rows of cells; pandas NaN/None is the
cell value Cell.na.
-/

/-- Python \s over the ASCII range: space, tab, newline, carriage return,
vertical tab, form feed. -/
def isSpaceCh (c : Char) : Bool :=
  c = ' ' || c = '\t' || c = '\n' || c = '\r' || c = '\x0b' || c = '\x0c'

/-- Python \d (ASCII digits). -/
def isDigitCh (c : Char) : Bool :=
  '0' ≤ c && c ≤ '9'

/-- The character class [A-Z]. -/
def isUpperCh (c : Char) : Bool :=
  'A' ≤ c && c ≤ 'Z'

/-- Python \w (ASCII view): letters, digits and underscore; used for the
word boundary \b of the decision pattern. -/
def isWordCh (c : Char) : Bool :=
  c.isAlphanum || c = '_'

/-- Take at most n leading characters satisfying p; returns the taken
run and the remaining characters. Models a greedy bounded quantifier. -/
def takeUpTo (p : Char → Bool) : Nat → List Char → List Char × List Char
  | 0, l => ([], l)
  | _ + 1, [] => ([], [])
  | n + 1, c :: cs =>
    if p c then
      let r := takeUpTo p n cs
      (c :: r.1, r.2)
    else ([], c :: cs)

/-- The alternation (CAS|TAS) of src/data_processing.py line 21: match one of
the two literal prefixes at the head of the character list. -/
def matchPref : List Char → Option (String × List Char)
  | 'C' :: 'A' :: 'S' :: r => some ("CAS", r)
  | 'T' :: 'A' :: 'S' :: r => some ("TAS", r)
  | _ => none

/-- One iteration of the group (?:\s?\+\s?\d{1,9}) from the decision pattern:
an optional whitespace, a literal plus, an optional whitespace, then one to nine
digits. Returns the consumed characters and the rest. The greedy \s? before the
plus can only succeed when the plus follows it, and the \s? after the plus is
kept only when at least one digit follows (otherwise the regex engine backtracks
to the empty option, which then fails on the whitespace), which is exactly the
case analysis below. -/
def plusIter (l : List Char) : Option (List Char × List Char) :=
  let step2 : List Char → List Char → Option (List Char × List Char) := fun pre q =>
    match q with
    | [] => none
    | w :: q2 =>
      if isSpaceCh w then
        let d := takeUpTo isDigitCh 9 q2
        if 1 ≤ d.1.length then some (pre ++ w :: d.1, d.2) else none
      else
        let d := takeUpTo isDigitCh 9 q
        if 1 ≤ d.1.length then some (pre ++ d.1, d.2) else none
  match l with
  | '+' :: r => step2 ['+'] r
  | c :: '+' :: r => if isSpaceCh c then step2 [c, '+'] r else none
  | _ => none

/-- The starred group (?:\s?\+\s?\d{1,9})* : repeat plusIter as long as it
succeeds. Nothing follows the group in the pattern, so the greedy star never
has to give iterations back. The fuel argument bounds the recursion; each
iteration consumes at least two characters. -/
def starScan : Nat → List Char → List Char × List Char
  | 0, l => ([], l)
  | fuel + 1, l =>
    match plusIter l with
    | none => ([], l)
    | some (con, rest) =>
      let r := starScan fuel rest
      (con ++ r.1, r.2)

/-- Attempt the decision pattern (CAS|TAS)\s(\d{4}\s[A-Z]{1,3}\s\d{1,9}(?:\s?\+\s?\d{1,9})*)
at the head of the list (the caller checks the word boundary). Returns the
prefix group, the second captured group and the rest of the input. The bounded
quantifiers are deterministic here: \d{4} must be followed by \s, so a longer
digit run fails for every choice; [A-Z]{1,3} must be followed by \s and the
class cannot match \s, so only the maximal run of length at most three can
succeed; \d{1,9} is followed by the star group and the end of the pattern, so
the greedy maximum always succeeds. -/
def matchAt (l : List Char) : Option (String × List Char × List Char) :=
  match matchPref l with
  | none => none
  | some (pre, r1) =>
    match r1 with
    | [] => none
    | w1 :: r2 =>
      if isSpaceCh w1 then
        let y := takeUpTo isDigitCh 4 r2
        if y.1.length = 4 then
          match y.2 with
          | [] => none
          | w2 :: r3 =>
            if isSpaceCh w2 then
              let ls := takeUpTo isUpperCh 3 r3
              if 1 ≤ ls.1.length then
                match ls.2 with
                | [] => none
                | w3 :: r4 =>
                  if isSpaceCh w3 then
                    let ds := takeUpTo isDigitCh 9 r4
                    if 1 ≤ ds.1.length then
                      let st := starScan ds.2.length ds.2
                      some (pre, y.1 ++ w2 :: ls.1 ++ w3 :: ds.1 ++ st.1, st.2)
                    else none
                  else none
              else none
            else none
        else none
      else none

/-- Scan of re.findall over the decision pattern: try the pattern at every
position from left to right, continuing after the end of each match. The
pattern starts with \b(CAS|TAS): the first matched character is a word
character, so the boundary holds exactly when the previous character (tracked
in prev) is absent or not a word character. -/
def findallAux : Nat → Option Char → List Char → List (String × List Char)
  | 0, _, _ => []
  | _ + 1, _, [] => []
  | fuel + 1, prev, c :: cs =>
    let boundary : Bool :=
      match prev with
      | none => true
      | some p => !isWordCh p
    match (if boundary then matchAt (c :: cs) else none) with
    | some (pre, g2, rest) => (pre, g2) :: findallAux fuel g2.getLast? rest
    | none => findallAux fuel (some c) cs

/-- re.findall of the decision pattern of src/data_processing.py line 21,
returning the list of (prefix group, tail group) pairs. -/
def findall (title : String) : List (String × String) :=
  (findallAux (title.toList.length + 1) none title.toList).map
    (fun p => (p.1, String.mk p.2))

/-- re.sub of the pattern \s?\+\s? by the replacement plus-with-spaces
(src/data_processing.py line 27): scan left to right, replacing each
non-overlapping leftmost match. A match is a plus with at most one whitespace
consumed greedily on each side. -/
def resubPlus : Nat → List Char → List Char
  | 0, l => l
  | _ + 1, [] => []
  | fuel + 1, c :: cs =>
    if c = '+' then
      match cs with
      | [] => [' ', '+', ' ']
      | w :: cs2 =>
        if isSpaceCh w then ' ' :: '+' :: ' ' :: resubPlus fuel cs2
        else ' ' :: '+' :: ' ' :: resubPlus fuel cs
    else if isSpaceCh c then
      match cs with
      | '+' :: cs2 =>
        match cs2 with
        | [] => [' ', '+', ' ']
        | w :: cs3 =>
          if isSpaceCh w then ' ' :: '+' :: ' ' :: resubPlus fuel cs3
          else ' ' :: '+' :: ' ' :: resubPlus fuel cs2
      | _ => c :: resubPlus fuel cs
    else c :: resubPlus fuel cs

/-- Normalisation of the plus separators of a matched group
(src/data_processing.py line 27). -/
def normalizePlus (s : String) : String :=
  String.mk (resubPlus (s.toList.length + 1) s.toList)

/-- Split a character list at every character satisfying p; acc holds the
reversed current piece. -/
def splitChAux (p : Char → Bool) : List Char → List Char → List (List Char)
  | acc, [] => [acc.reverse]
  | acc, c :: cs =>
    if p c then acc.reverse :: splitChAux p [] cs else splitChAux p (c :: acc) cs

/-- Split a character list on a non-overlapping leftmost occurrence of a
nonempty separator; acc holds the reversed current piece, fuel bounds the
recursion. -/
def splitOnAuxL (sep : List Char) : Nat → List Char → List Char → List (List Char)
  | 0, acc, l => [acc.reverse ++ l]
  | _ + 1, acc, [] => [acc.reverse]
  | fuel + 1, acc, c :: cs =>
    if sep.isPrefixOf (c :: cs) then
      acc.reverse :: splitOnAuxL sep fuel [] ((c :: cs).drop sep.length)
    else splitOnAuxL sep fuel (c :: acc) cs

/-- Python str.split(sep) with a non-whitespace separator, as used with the
plus-with-spaces separator (src/data_processing.py line 27). -/
def splitOnStr (s sep : String) : List String :=
  (splitOnAuxL sep.toList (s.toList.length + 1) [] s.toList).map String.mk

/-- Python str.split() with no argument: split on whitespace runs and drop
empty pieces (src/data_processing.py line 32). -/
def pysplit (s : String) : List String :=
  ((splitChAux isSpaceCh [] s.toList).map String.mk).filter (fun t => t ≠ "")

/-- The inner loop of extract_decisions_and_cases (src/data_processing.py
lines 31 to 44). State: pref is the matched prefix; py and pl are the Python
variables previous_year and previous_letters, reset per match (previous_year
is the Python int literal 0000, that is the int 0, whose string form is "0");
cur holds the current values of the Python variables year, letters, number,
which persist across fragments and across matches and are unbound (none)
before the first assignment. A fragment of three words is a full triple; a
fragment of one word is a bare number inheriting previous_year and
previous_letters; any other shape reuses the stale bindings, which is a Python
NameError when they are unbound. -/
def procSeq (pref : String) :
    String → String → Option (String × String × String) → List String →
      Except String (Option (String × String × String) × List String)
  | _, _, cur, [] => .ok (cur, [])
  | py, pl, cur, c :: cs =>
    let parts := pysplit c
    if parts.length = 3 then
      let yy := parts.getD 0 ""
      let ll := parts.getD 1 ""
      let nn := parts.getD 2 ""
      match procSeq pref yy ll (some (yy, ll, nn)) cs with
      | .error e => .error e
      | .ok (cur2, rest) => .ok (cur2, (pref ++ " " ++ yy ++ " " ++ ll ++ " " ++ nn) :: rest)
    else if parts.length = 1 then
      let nn := parts.getD 0 ""
      match procSeq pref py pl (some (py, pl, nn)) cs with
      | .error e => .error e
      | .ok (cur2, rest) => .ok (cur2, (pref ++ " " ++ py ++ " " ++ pl ++ " " ++ nn) :: rest)
    else
      match cur with
      | none => .error "NameError"
      | some t =>
        match procSeq pref py pl (some t) cs with
        | .error e => .error e
        | .ok (cur2, rest) => .ok (cur2, (pref ++ " " ++ t.1 ++ " " ++ t.2.1 ++ " " ++ t.2.2) :: rest)

/-- The outer loop of extract_decisions_and_cases over the regex matches
(src/data_processing.py lines 24 to 44): for each match, normalise the plus
separators, split into fragments and run the inner loop with previous_year
and previous_letters freshly reset. -/
def extractLoop : Option (String × String × String) → List (String × String) →
    Except String (List String)
  | _, [] => .ok []
  | cur, (pre, g2) :: ms =>
    let seq := splitOnStr (normalizePlus g2) " + "
    match procSeq pre "0" "X" cur seq with
    | .error e => .error e
    | .ok (cur2, cases) =>
      match extractLoop cur2 ms with
      | .error e => .error e
      | .ok rest => .ok (cases ++ rest)

/-- extract_decisions_and_cases of src/data_processing.py lines 3 to 46. -/
def extract_decisions_and_cases (title : String) : Except String (List String) :=
  extractLoop none (findall title)


/-- The character class [A-Z ] of the case-number patterns. -/
def classAZsp (c : Char) : Bool := isUpperCh c || c = ' '

/-- Python . without DOTALL: any character except newline. -/
def notNewline (c : Char) : Bool := c != '\n'

/-- Syntax of the regular expressions used by extract_and_write_case_number
(src/decision_counter.py lines 158 and 159). Quantifiers only ever apply to
single-character classes in those patterns, so bounded greedy and lazy
character-class repetitions are enough. -/
inductive REx where
  | lit (c : Char)
  | strq (cs : List Char)
  | alt (a b : REx)
  | seq (a b : REx)
  | optR (a : REx)
  | repGreedy (p : Char → Bool) (lo : Nat) (hi : Option Nat)
  | repLazy (p : Char → Bool) (lo : Nat) (hi : Option Nat)

/-- Try the continuation after consuming lo + d, lo + d - 1, ..., lo characters,
in that order (greedy backtracking for a character-class repetition). -/
def countDownTry (k : List Char → Option (List Char)) (l : List Char) (lo : Nat) :
    Nat → Option (List Char)
  | 0 => k (l.drop lo)
  | d + 1 =>
    match k (l.drop (lo + d + 1)) with
    | some r => some r
    | none => countDownTry k l lo d

/-- Try the continuation after consuming cur, cur + 1, ..., cur + d characters,
in that order (lazy backtracking for a character-class repetition). -/
def countUpTry (k : List Char → Option (List Char)) (l : List Char) :
    Nat → Nat → Option (List Char)
  | cur, 0 => k (l.drop cur)
  | cur, d + 1 =>
    match k (l.drop cur) with
    | some r => some r
    | none => countUpTry k l (cur + 1) d

/-- Backtracking matcher in continuation-passing style: mtch r l k matches r
against a prefix of l and calls k on the remainder, backtracking through the
choice points of alternations, options and repetitions in the standard
leftmost greedy or lazy order of the Python re engine. A character-class
repetition can only consume a prefix of the maximal run of its class, so all
its choice points are the consumption counts between its bounds. -/
def mtch : REx → List Char → (List Char → Option (List Char)) → Option (List Char)
  | .lit c0, l, k =>
    match l with
    | [] => none
    | c :: cs => if c = c0 then k cs else none
  | .strq s, l, k => if s.isPrefixOf l then k (l.drop s.length) else none
  | .alt a b, l, k =>
    match mtch a l k with
    | some r => some r
    | none => mtch b l k
  | .seq a b, l, k => mtch a l (fun r => mtch b r k)
  | .optR a, l, k =>
    match mtch a l k with
    | some r => some r
    | none => k l
  | .repGreedy p lo hi, l, k =>
    let run := (l.span p).1.length
    let hiv := match hi with | none => run | some h => min h run
    if hiv < lo then none else countDownTry k l lo (hiv - lo)
  | .repLazy p lo hi, l, k =>
    let run := (l.span p).1.length
    let hiv := match hi with | none => run | some h => min h run
    if hiv < lo then none else countUpTry k l lo (hiv - lo)

/-- The pattern with prefix of src/decision_counter.py line 158:
the regex of a parenthesis, optional whitespace, CAS or TAS, a space, an
optional run of two to four digits, an optional space, a nonempty run over
[A-Z ], a lazy any-but-newline run and a closing parenthesis. -/
def patternWithCAS : REx :=
  .seq (.lit '(') (.seq (.repGreedy isSpaceCh 0 none)
    (.seq (.alt (.strq ['C', 'A', 'S']) (.strq ['T', 'A', 'S']))
      (.seq (.lit ' ') (.seq (.optR (.repGreedy isDigitCh 2 (some 4)))
        (.seq (.optR (.lit ' ')) (.seq (.repGreedy classAZsp 1 none)
          (.seq (.repLazy notNewline 0 none) (.lit ')'))))))))

/-- The pattern without prefix of src/decision_counter.py line 159. -/
def patternNoCAS : REx :=
  .seq (.lit '(') (.seq (.repGreedy isSpaceCh 0 none)
    (.seq (.optR (.repGreedy isDigitCh 2 (some 4)))
      (.seq (.optR (.lit ' ')) (.seq (.repGreedy classAZsp 1 none)
        (.seq (.repLazy notNewline 0 none) (.lit ')'))))))

/-- re.search: try the pattern at every position from left to right and return
the whole match (group 0) of the leftmost success. -/
def searchR (r : REx) : Nat → List Char → Option (List Char)
  | 0, _ => none
  | fuel + 1, l =>
    match mtch r l some with
    | some rest => some (l.take (l.length - rest.length))
    | none =>
      match l with
      | [] => none
      | _ :: cs => searchR r fuel cs

/-- Python str.strip with the two parenthesis characters: drop every leading
and trailing parenthesis (src/decision_counter.py lines 165 and 169). -/
def stripParens (s : String) : String :=
  String.mk (((s.toList.dropWhile (fun c => c = '(' || c = ')')).reverse.dropWhile
    (fun c => c = '(' || c = ')')).reverse)

/-- The helper extract_case_number of src/decision_counter.py lines 162 to 170:
search the pattern with prefix, fall back to the pattern without prefix, strip
the surrounding parentheses of the whole match; None when both patterns miss. -/
def extract_case_number (s : String) : Option String :=
  match searchR patternWithCAS (s.toList.length + 1) s.toList with
  | some g0 => some (stripParens (String.mk g0))
  | none =>
    match searchR patternNoCAS (s.toList.length + 1) s.toList with
    | some g0 => some (stripParens (String.mk g0))
    | none => none

/-- A cell of the embedded pandas DataFrame. Cell.na stands for pandas
NaN / None / NaT; dates carry year, month and day. -/
inductive Cell where
  | na : Cell
  | str : String → Cell
  | int : Int → Cell
  | date : Nat → Nat → Nat → Cell
deriving DecidableEq, Repr

/-- The embedded DataFrame: column names and rows of cells, in order, with the
default integer range index of pandas read_excel (every call site of the
functions below reads its frame straight from a sheet, so label access at
integer i is positional access). -/
structure DataFrame where
  cols : List String
  rows : List (List Cell)
deriving DecidableEq, Repr

/-- Position of a column name in the column list, None when absent. -/
def colIndex (cols : List String) (c : String) : Option Nat :=
  match cols with
  | [] => none
  | x :: xs => if x = c then some 0 else (colIndex xs c).map (· + 1)

/-- The cell of row r in the named column; Cell.na when the column is absent. -/
def DataFrame.cellD (df : DataFrame) (r : List Cell) (c : String) : Cell :=
  match colIndex df.cols c with
  | some i => r.getD i Cell.na
  | none => Cell.na

/-- Column assignment df[c] = vals of pandas: replace the column in place when
it exists, otherwise append it as the last column. -/
def DataFrame.setColumn (df : DataFrame) (c : String) (vals : List Cell) : DataFrame :=
  match colIndex df.cols c with
  | some i => ⟨df.cols, (df.rows.zip vals).map (fun p => p.1.set i p.2)⟩
  | none => ⟨df.cols ++ [c], (df.rows.zip vals).map (fun p => p.1 ++ [p.2])⟩

/-- Python s[-n:]: the last n characters, or the whole string when shorter. -/
def takeRightStr (s : String) (n : Nat) : String :=
  String.mk (s.toList.drop (s.toList.length - n))

/-- Substring containment over character lists (Python in, and
pandas str.contains with a literal pattern). -/
def strContainsL (hay pat : List Char) : Bool :=
  match hay with
  | [] => pat.isEmpty
  | _ :: t => pat.isPrefixOf hay || strContainsL t pat

/-- Case-insensitive containment, for str.contains(..., case=False). -/
def containsCI (s pat : String) : Bool :=
  strContainsL (s.toList.map Char.toLower) (pat.toList.map Char.toLower)

/-- Case-sensitive containment for a string cell; non-string cells never match
(str.contains with na=False). -/
def cellContainsCS (c : Cell) (pat : String) : Bool :=
  match c with
  | .str s => strContainsL s.toList pat.toList
  | _ => false

/-- Case-insensitive containment for a string cell; non-string cells never
match (str.contains with case=False, na=False). -/
def cellContainsCI (c : Cell) (pat : String) : Bool :=
  match c with
  | .str s => containsCI s pat
  | _ => false

/-- separate_into_sub_categories of src/decision_counter.py lines 77 to 100:
raise when the Filename column is absent, otherwise return the rows whose
Filename contains Web archives and the rows whose Filename contains Bull,
both case-insensitively. -/
def separate_into_sub_categories (df : DataFrame) : Except String (DataFrame × DataFrame) :=
  if (colIndex df.cols "Filename").isNone then
    .error "The DataFrame must contain a Filename column."
  else
    .ok (⟨df.cols, df.rows.filter (fun r => cellContainsCI (df.cellD r "Filename") "Web archives")⟩,
         ⟨df.cols, df.rows.filter (fun r => cellContainsCI (df.cellD r "Filename") "Bull")⟩)

/-- The per-row case numbers of extract_and_write_case_number: the first column
value must be a string (re.search raises a TypeError otherwise); a parse miss
gives Cell.na. -/
def caseNumbersOf (df : DataFrame) : List Cell :=
  df.rows.map (fun r =>
    match r.headD Cell.na with
    | .str s =>
      match extract_case_number s with
      | some c => Cell.str c
      | none => Cell.na
    | _ => Cell.na)

/-- Whether a cell holds a string. -/
def isStrCell (c : Cell) : Bool :=
  match c with
  | .str _ => true
  | _ => false

/-- extract_and_write_case_number of src/decision_counter.py lines 147 to 179:
apply extract_case_number to the first column, write the results as the
Case Number column, and raise ValueError when every extracted value is null
(the isnull().all() check, vacuously true on an empty frame). Applying
re.search to a non-string first-column value is a TypeError. -/
def extract_and_write_case_number (df : DataFrame) : Except String DataFrame :=
  if df.rows.all (fun r => isStrCell (r.headD Cell.na)) then
    let cns := caseNumbersOf df
    if cns.all (fun c => c = Cell.na) then
      .error "No case numbers matching the pattern were found."
    else
      .ok (df.setColumn "Case Number" cns)
  else
    .error "TypeError"

/-- The year of the Extracted dates cell: x.year when the cell is a date,
None when the cell is null (src/decision_counter.py line 197). -/
def yearOf (c : Cell) : Option Nat :=
  match c with
  | .date y _ _ => some y
  | _ => none

/-- Python str(x) for the cell values that can reach the Short Case Number
computation (dates render as in datetime, zero padded). -/
def cellStr (c : Cell) : String :=
  match c with
  | .str s => s
  | .int n => toString n
  | .date y m d =>
    (String.mk (List.replicate (4 - (toString y).length) '0') ++ toString y) ++ "-" ++
      (String.mk (List.replicate (2 - (toString m).length) '0') ++ toString m) ++ "-" ++
      (String.mk (List.replicate (2 - (toString d).length) '0') ++ toString d)
  | .na => "nan"

/-- The Short Case Number of src/decision_counter.py line 200: the last six
characters of str(x) when the cell is not null, None otherwise. -/
def shortCaseKey (c : Cell) : Option String :=
  match c with
  | .na => none
  | c => some (takeRightStr (cellStr c) 6)

/-- Lexicographic comparison of character lists by code point, the Python
string comparison used when pandas sorts an object column of strings. -/
def charListLE : List Char → List Char → Bool
  | [], _ => true
  | _ :: _, [] => false
  | a :: as, b :: bs => if a < b then true else if b < a then false else charListLE as bs

/-- Comparison of optional years with missing values last
(pandas na_position last). -/
def optNatLE (a b : Option Nat) : Bool :=
  match a, b with
  | none, none => true
  | none, some _ => false
  | some _, none => true
  | some x, some y => x ≤ y

/-- Strict version of optNatLE. -/
def optNatLT (a b : Option Nat) : Bool :=
  match a, b with
  | none, _ => false
  | some _, none => true
  | some x, some y => x < y

/-- Comparison of optional cluster keys with missing values last. -/
def optStrLE (a b : Option String) : Bool :=
  match a, b with
  | none, none => true
  | none, some _ => false
  | some _, none => true
  | some x, some y => charListLE x.toList y.toList

/-- The two-column sort key (Year, Short Case Number) of
proper_ordering_cases_by_case_number, compared lexicographically with missing
values last in each column. -/
def keyLE (a b : Option Nat × Option String) : Bool :=
  if a.1 = b.1 then optStrLE a.2 b.2 else optNatLT a.1 b.1

/-- The sort key of a row for proper_ordering_cases_by_case_number. -/
def properKey (df : DataFrame) (r : List Cell) : Option Nat × Option String :=
  (yearOf (df.cellD r "Extracted dates"), shortCaseKey (df.cellD r "Case Number"))

/-- The row ordering used to sort by the temporary (Year, Short Case Number)
columns. -/
def rowLE (df : DataFrame) (r1 r2 : List Cell) : Prop :=
  keyLE (properKey df r1) (properKey df r2) = true

instance (df : DataFrame) : DecidableRel (rowLE df) :=
  fun r1 r2 => instDecidableEqBool (keyLE (properKey df r1) (properKey df r2)) true

/-- proper_ordering_cases_by_case_number of src/decision_counter.py lines 181
to 208: raise when Extracted dates or Case Number is absent; otherwise add the
temporary Year and Short Case Number columns, sort by them and drop them
again, which amounts to a stable sort of the rows by the (Year, Short Case
Number) key (the multi-column sort_values of pandas is a stable lexsort). -/
def proper_ordering_cases_by_case_number (df : DataFrame) : Except String DataFrame :=
  if (colIndex df.cols "Extracted dates").isNone || (colIndex df.cols "Case Number").isNone then
    .error "The DataFrame must contain Extracted dates and Case Number columns."
  else
    .ok ⟨df.cols, List.insertionSort (rowLE df) df.rows⟩

/-- The cluster key of the grouping pass (src/decision_counter.py lines 232 to
236): the last six characters of the Case Number when it is a string of length
at least six, None otherwise. -/
def lastSixKey (c : Cell) : Option String :=
  match c with
  | .str s => if 6 ≤ s.toList.length then some (takeRightStr s 6) else none
  | _ => none

/-- The cluster keys of all rows of a frame, in order. -/
def clusterKeysOf (df : DataFrame) : List (Option String) :=
  df.rows.map (fun r => lastSixKey (df.cellD r "Case Number"))

/-- The counter loop of group_identical_decisions (src/decision_counter.py
lines 223 to 241): cur is the Python variable current_case (initially None)
and cnt the counter (initially 0); the counter is bumped exactly when the key
of the row differs from cur. The null key None compares equal to the initial
None of current_case and to other null keys, exactly as in Python. -/
def counterScan (cur : Option String) (cnt : Nat) : List (Option String) → List Nat
  | [] => []
  | k :: ks =>
    if k = cur then cnt :: counterScan cur cnt ks
    else (cnt + 1) :: counterScan k (cnt + 1) ks

/-- group_identical_decisions of src/decision_counter.py lines 210 to 246:
raise when the Case Number column is absent; run the counter loop over the
cluster keys; insert the Decision Counter column at position 0. The insert of
pandas raises ValueError when the column already exists (allow_duplicates
defaults to False). -/
def group_identical_decisions (df : DataFrame) : Except String DataFrame :=
  if (colIndex df.cols "Case Number").isNone then
    .error "The DataFrame must contain a Case Number column."
  else if (colIndex df.cols "Decision Counter").isSome then
    .error "cannot insert Decision Counter, already exists"
  else
    let cs := counterScan none 0 (clusterKeysOf df)
    .ok ⟨"Decision Counter" :: df.cols,
      (df.rows.zip cs).map (fun p => Cell.int (Int.ofNat p.2) :: p.1)⟩

/-- Membership test of a cell value in a list of cell values
(the isin of pandas used by the subset_3 definition of src/main.py). -/
def isinVal (l : List Cell) (v : Cell) : Bool :=
  l.any (fun x => decide (x = v))

/-- subset_1 of src/main.py line 87: rows whose Filename contains the literal
bracketed CAS Web Archives marker (the regex escapes make the pattern a plain
substring; the match is case sensitive). -/
def subset_1 (df : DataFrame) : List (List Cell) :=
  df.rows.filter (fun r => cellContainsCS (df.cellD r "Filename") "[CAS Web Archives]")

/-- subset_2 of src/main.py line 88: rows whose Filename contains CAS Bull. -/
def subset_2 (df : DataFrame) : List (List Cell) :=
  df.rows.filter (fun r => cellContainsCS (df.cellD r "Filename") "CAS Bull")

/-- subset_3 of src/main.py line 89: rows whose Filename value is in neither
the Filename values of subset_1 nor those of subset_2. -/
def subset_3 (df : DataFrame) : List (List Cell) :=
  df.rows.filter (fun r =>
    !(isinVal ((subset_1 df).map (fun x => df.cellD x "Filename")) (df.cellD r "Filename")) &&
    !(isinVal ((subset_2 df).map (fun x => df.cellD x "Filename")) (df.cellD r "Filename")))

/-- The number of maximal runs of equal adjacent values. -/
def runCount : List (Option String) → Nat
  | [] => 0
  | [_] => 1
  | a :: b :: t => (if a = b then 0 else 1) + runCount (b :: t)


/-! ### Lemmas about the grouping counter loop -/

theorem counterScan_cons (cur : Option String) (cnt : Nat) (k : Option String)
    (ks : List (Option String)) :
    counterScan cur cnt (k :: ks) =
      (if k = cur then cnt else cnt + 1) ::
        counterScan k (if k = cur then cnt else cnt + 1) ks := by
  by_cases h : k = cur <;> simp [counterScan, h]

theorem length_counterScan (ks : List (Option String)) :
    ∀ cur cnt, (counterScan cur cnt ks).length = ks.length := by
  induction ks with
  | nil => intro cur cnt; rfl
  | cons k ks ih =>
    intro cur cnt
    rw [counterScan_cons]
    simp [ih]

theorem mem_counterScan_lb (ks : List (Option String)) :
    ∀ cur cnt x, x ∈ counterScan cur cnt ks → cnt ≤ x := by
  induction ks with
  | nil => intro cur cnt x h; simp [counterScan] at h
  | cons k ks ih =>
    intro cur cnt x h
    rw [counterScan_cons] at h
    rcases List.mem_cons.mp h with h | h
    · subst h
      split <;> omega
    · by_cases hk : k = cur
      · simp only [hk, if_pos rfl] at h
        exact ih cur cnt x h
      · simp only [if_neg hk] at h
        have := ih k (cnt + 1) x h
        omega

theorem counterScan_adj (ks : List (Option String)) :
    ∀ cur cnt i, i + 1 < ks.length →
      (((counterScan cur cnt ks).getD (i + 1) 0 = (counterScan cur cnt ks).getD i 0 ↔
        ks.getD (i + 1) none = ks.getD i none) ∧
      (ks.getD (i + 1) none ≠ ks.getD i none →
        (counterScan cur cnt ks).getD (i + 1) 0 = (counterScan cur cnt ks).getD i 0 + 1)) := by
  induction ks with
  | nil => intro cur cnt i h; simp at h
  | cons k ks ih =>
    intro cur cnt i h
    match ks, i with
    | k2 :: t, 0 =>
      rw [counterScan_cons, counterScan_cons]
      by_cases h2 : k2 = k
      · simp [h2]
      · simp [h2]
    | k2 :: t, i + 1 =>
      rw [counterScan_cons]
      simp only [List.getD_cons_succ]
      exact ih k (if k = cur then cnt else cnt + 1) i (by simpa using h)

theorem counterScan_dedup (ks : List (Option String)) :
    ∀ cur cnt, (counterScan cur cnt ks).dedup.length = runCount ks := by
  induction ks with
  | nil => intro cur cnt; rfl
  | cons k ks ih =>
    intro cur cnt
    rw [counterScan_cons]
    match ks with
    | [] => simp [counterScan, runCount, List.dedup]
    | k2 :: t =>
      by_cases h2 : k2 = k
      · have hmem : (if k = cur then cnt else cnt + 1) ∈
            counterScan k (if k = cur then cnt else cnt + 1) (k2 :: t) := by
          rw [counterScan_cons, if_pos h2]
          exact List.mem_cons_self _ _
        rw [List.dedup_cons_of_mem hmem, ih k (if k = cur then cnt else cnt + 1)]
        simp [runCount, h2]
      · have hnmem : (if k = cur then cnt else cnt + 1) ∉
            counterScan k (if k = cur then cnt else cnt + 1) (k2 :: t) := by
          rw [counterScan_cons, if_neg h2]
          intro hmem
          rcases List.mem_cons.mp hmem with h | h
          · omega
          · have := mem_counterScan_lb t k2 _ _ h
            omega
        rw [List.dedup_cons_of_not_mem hnmem, List.length_cons,
          ih k (if k = cur then cnt else cnt + 1)]
        have h2s : ¬k = k2 := fun h => h2 h.symm
        simp [runCount, h2s]
        omega

theorem counterScan_headD (k : Option String) (t : List (Option String)) :
    (counterScan none 0 (k :: t)).headD 0 = if k = none then 0 else 1 := by
  rw [counterScan_cons]
  rfl

/-! ### Claims C1, C4, C10 about the grouping pass -/

/-- C1 (amended): over the grouping pass of group_identical_decisions, the
counter sequence has the length of the key sequence, is non-decreasing,
two adjacent rows share a counter value iff their cluster keys are equal, the
counter increases by exactly one at each cluster-key change, and the number of
distinct counter values equals the number of maximal runs of equal cluster
keys; the sequence starts at 1 provided the first cluster key is not null
(when it is null, the initial None sentinel of current_case collides with it
and the sequence starts at 0). -/
theorem c1_grouping_monotonicity (df : DataFrame) :
    (counterScan none 0 (clusterKeysOf df)).length = (clusterKeysOf df).length ∧
    (∀ i : Nat, i + 1 < (clusterKeysOf df).length →
      ((counterScan none 0 (clusterKeysOf df)).getD i 0 ≤
        (counterScan none 0 (clusterKeysOf df)).getD (i + 1) 0) ∧
      ((counterScan none 0 (clusterKeysOf df)).getD (i + 1) 0 =
          (counterScan none 0 (clusterKeysOf df)).getD i 0 ↔
        (clusterKeysOf df).getD (i + 1) none = (clusterKeysOf df).getD i none) ∧
      ((clusterKeysOf df).getD (i + 1) none ≠ (clusterKeysOf df).getD i none →
        (counterScan none 0 (clusterKeysOf df)).getD (i + 1) 0 =
          (counterScan none 0 (clusterKeysOf df)).getD i 0 + 1)) ∧
    ((counterScan none 0 (clusterKeysOf df)).dedup.length = runCount (clusterKeysOf df)) ∧
    (∀ k t, clusterKeysOf df = k :: t → k ≠ none →
      (counterScan none 0 (clusterKeysOf df)).headD 0 = 1) := by
  refine ⟨length_counterScan _ none 0, ?_, counterScan_dedup _ none 0, ?_⟩
  · intro i hi
    have adj := counterScan_adj (clusterKeysOf df) none 0 i hi
    refine ⟨?_, adj.1, adj.2⟩
    by_cases hk : (clusterKeysOf df).getD (i + 1) none = (clusterKeysOf df).getD i none
    · exact le_of_eq (adj.1.mpr hk).symm
    · rw [adj.2 hk]
      omega
  · intro k t hks hk
    rw [hks, counterScan_headD, if_neg hk]

/-- C1, counterexample to the claim as stated: when the first record has a
null cluster key (here a null Case Number), the assigned counter sequence
starts at 0, not at 1, because the initial None of current_case equals the
null key. -/
theorem c1_first_null_counter_zero :
    group_identical_decisions ⟨["Case Number"], [[Cell.na]]⟩ =
      Except.ok ⟨["Decision Counter", "Case Number"], [[Cell.int 0, Cell.na]]⟩ := by
  rfl

theorem c1_grouping_monotonicity_witness :
    ((counterScan none 0
        (clusterKeysOf ⟨["Case Number"], [[Cell.str "AB1234"], [Cell.str "CD5678"]]⟩)).getD 1 0 =
      (counterScan none 0
        (clusterKeysOf ⟨["Case Number"], [[Cell.str "AB1234"], [Cell.str "CD5678"]]⟩)).getD 0 0 + 1) ∧
    (counterScan none 0
        (clusterKeysOf ⟨["Case Number"], [[Cell.str "AB1234"], [Cell.str "CD5678"]]⟩)).headD 0 = 1 :=
  ⟨((c1_grouping_monotonicity ⟨["Case Number"], [[Cell.str "AB1234"], [Cell.str "CD5678"]]⟩).2.1 0
      (by decide)).2.2 (by decide),
   (c1_grouping_monotonicity ⟨["Case Number"], [[Cell.str "AB1234"], [Cell.str "CD5678"]]⟩).2.2.2
      (some "AB1234") [some "CD5678"] (by decide) (by decide)⟩

/-- C4 (amended): in the grouping pass, two consecutive records that both have
a null cluster key always share a counter value, because None compares equal
to None in the loop of group_identical_decisions; a null-key record is a
singleton group only when its neighbours carry non-null keys. -/
theorem c4_null_keys_share_group (df : DataFrame) (i : Nat)
    (h : i + 1 < (clusterKeysOf df).length)
    (h0 : (clusterKeysOf df).getD i none = none)
    (h1 : (clusterKeysOf df).getD (i + 1) none = none) :
    (counterScan none 0 (clusterKeysOf df)).getD (i + 1) 0 =
      (counterScan none 0 (clusterKeysOf df)).getD i 0 :=
  (counterScan_adj (clusterKeysOf df) none 0 i h).1.mpr (h1.trans h0.symm)

/-- C4, counterexample to the claim as stated: two consecutive rows with null
Case Number (hence null cluster keys) receive the same Decision Counter value
2; they do not form two singleton groups. -/
theorem c4_consecutive_nulls_same_counter :
    group_identical_decisions
        ⟨["Case Number"], [[Cell.str "CAS 2020 ABC 999"], [Cell.na], [Cell.na]]⟩ =
      Except.ok ⟨["Decision Counter", "Case Number"],
        [[Cell.int 1, Cell.str "CAS 2020 ABC 999"], [Cell.int 2, Cell.na], [Cell.int 2, Cell.na]]⟩ ∧
    lastSixKey Cell.na = none :=
  ⟨rfl, rfl⟩

theorem c4_null_keys_share_group_witness :
    (counterScan none 0
        (clusterKeysOf ⟨["Case Number"], [[Cell.str "QRSTUV"], [Cell.na], [Cell.na]]⟩)).getD 2 0 =
      (counterScan none 0
        (clusterKeysOf ⟨["Case Number"], [[Cell.str "QRSTUV"], [Cell.na], [Cell.na]]⟩)).getD 1 0 :=
  c4_null_keys_share_group ⟨["Case Number"], [[Cell.str "QRSTUV"], [Cell.na], [Cell.na]]⟩ 1
    (by decide) (by decide) (by decide)

/-- C10 (amended): when the frame has a Case Number column and no pre-existing
Decision Counter column, group_identical_decisions succeeds and its only
modification is inserting a Decision Counter column at position 0 holding one
integer per row: the column list gains Decision Counter in front, the row
count is unchanged, dropping the first cell of every output row recovers the
input rows exactly (order and all pre-existing values preserved), and the
first cell of every output row is an integer. -/
theorem c10_frame_effect (df : DataFrame)
    (h1 : colIndex df.cols "Case Number" ≠ none)
    (h2 : colIndex df.cols "Decision Counter" = none) :
    ∃ out, group_identical_decisions df = Except.ok out ∧
      out.cols = "Decision Counter" :: df.cols ∧
      out.rows.length = df.rows.length ∧
      out.rows.map (fun r => r.tail) = df.rows ∧
      ∀ r ∈ out.rows, ∃ n : Int, r.headD Cell.na = Cell.int n := by
  have e1 : (colIndex df.cols "Case Number").isNone = false := by
    rcases hx : colIndex df.cols "Case Number" with _ | v
    · exact absurd hx h1
    · rfl
  have e2 : (colIndex df.cols "Decision Counter").isSome = false := by
    rw [h2]
    rfl
  have hlen : (counterScan none 0 (clusterKeysOf df)).length = df.rows.length := by
    rw [length_counterScan]
    simp [clusterKeysOf]
  have key : group_identical_decisions df = Except.ok
      ⟨"Decision Counter" :: df.cols,
        (df.rows.zip (counterScan none 0 (clusterKeysOf df))).map
          (fun p => Cell.int (Int.ofNat p.2) :: p.1)⟩ := by
    simp [group_identical_decisions, e1, e2]
  refine ⟨_, key, rfl, ?_, ?_, ?_⟩
  · simp [List.length_zip, hlen]
  · rw [List.map_map]
    have hco : ((fun r : List Cell => r.tail) ∘ fun p : List Cell × Nat =>
        Cell.int (Int.ofNat p.2) :: p.1) = Prod.fst := rfl
    rw [hco]
    exact List.map_fst_zip _ _ (le_of_eq hlen.symm)
  · intro r hr
    rcases List.mem_map.mp hr with ⟨p, hp, hpr⟩
    exact ⟨Int.ofNat p.2, by rw [← hpr]; rfl⟩

/-- C10, counterexample to the claim as stated: on a frame that already has a
Decision Counter column, the pandas insert raises instead of producing the
described output (allow_duplicates defaults to False). -/
theorem c10_existing_counter_column_error :
    group_identical_decisions
        ⟨["Decision Counter", "Case Number"], [[Cell.int 5, Cell.str "ABC123"]]⟩ =
      Except.error "cannot insert Decision Counter, already exists" := by
  rfl

theorem c10_frame_effect_witness :
    ∃ out, group_identical_decisions ⟨["Case Number"], [[Cell.str "XY1234"], [Cell.na]]⟩ =
        Except.ok out ∧
      out.cols = "Decision Counter" :: ["Case Number"] ∧
      out.rows.length = 2 ∧
      out.rows.map (fun r => r.tail) = [[Cell.str "XY1234"], [Cell.na]] ∧
      ∀ r ∈ out.rows, ∃ n : Int, r.headD Cell.na = Cell.int n :=
  c10_frame_effect ⟨["Case Number"], [[Cell.str "XY1234"], [Cell.na]]⟩ (by decide) (by decide)

/-! ### Claim C9 about missing required columns -/

/-- C9: each of the three operations checks its required columns first and
fails with a descriptive error before touching the frame: partitioning needs
Filename, cluster ordering needs Extracted dates and Case Number, grouping
needs Case Number; in each case the result is the error alone, so no partial
output is produced and the input frame is unchanged. -/
theorem c9_missing_column_errors :
    (∀ df : DataFrame, colIndex df.cols "Filename" = none →
      separate_into_sub_categories df =
        Except.error "The DataFrame must contain a Filename column.") ∧
    (∀ df : DataFrame,
      colIndex df.cols "Extracted dates" = none ∨ colIndex df.cols "Case Number" = none →
      proper_ordering_cases_by_case_number df =
        Except.error "The DataFrame must contain Extracted dates and Case Number columns.") ∧
    (∀ df : DataFrame, colIndex df.cols "Case Number" = none →
      group_identical_decisions df =
        Except.error "The DataFrame must contain a Case Number column.") := by
  refine ⟨?_, ?_, ?_⟩
  · intro df h
    simp [separate_into_sub_categories, h]
  · intro df h
    rcases h with h | h <;> simp [proper_ordering_cases_by_case_number, h]
  · intro df h
    simp [group_identical_decisions, h]

theorem c9_missing_column_errors_witness :
    separate_into_sub_categories ⟨["A"], []⟩ =
        Except.error "The DataFrame must contain a Filename column." ∧
    proper_ordering_cases_by_case_number ⟨["A"], []⟩ =
        Except.error "The DataFrame must contain Extracted dates and Case Number columns." ∧
    group_identical_decisions ⟨["A"], []⟩ =
        Except.error "The DataFrame must contain a Case Number column." :=
  ⟨c9_missing_column_errors.1 ⟨["A"], []⟩ (by decide),
   c9_missing_column_errors.2.1 ⟨["A"], []⟩ (Or.inl (by decide)),
   c9_missing_column_errors.2.2 ⟨["A"], []⟩ (by decide)⟩

/-! ### Claim C3 about the bare-number title -/

/-- C3 (amended): the title CAS 123 matches the decision pattern nowhere,
because the pattern requires four year digits after the prefix, so
extract_decisions_and_cases returns the empty identifier list without raising;
the 0000 / X sentinel defaults of the source are unreachable, since every
regex match opens with a full year-series-number triple, and the bare
reference is silently dropped rather than marked. -/
theorem c3_bare_number_empty :
    findall "CAS 123" = [] ∧ extract_decisions_and_cases "CAS 123" = Except.ok [] :=
  ⟨rfl, rfl⟩

/-- C3, counterexample to the claim as stated: the parser returns no
identifier at all for CAS 123, in particular not a single sentinel-marked
identifier. -/
theorem c3_no_sentinel_identifier :
    extract_decisions_and_cases "CAS 123" = Except.ok [] ∧
    ∀ ident : String, extract_decisions_and_cases "CAS 123" ≠ Except.ok [ident] := by
  have h0 : extract_decisions_and_cases "CAS 123" = Except.ok [] := rfl
  refine ⟨h0, ?_⟩
  intro ident h
  rw [h0] at h
  exact List.cons_ne_nil ident [] (Except.ok.inj h).symm

/-! ### Claim C2 about carry-over parsing -/

theorem procSeq_indep (pref py pl : String) (f : String) (fs : List String)
    (h : (pysplit f).length = 3 ∨ (pysplit f).length = 1)
    (cur cur' : Option (String × String × String)) :
    procSeq pref py pl cur (f :: fs) = procSeq pref py pl cur' (f :: fs) := by
  rcases h with h | h
  · simp [procSeq, h]
  · have h3 : ¬(pysplit f).length = 3 := by omega
    simp [procSeq, h, h3]

theorem extractLoop_indep (ms : List (String × String))
    (hgood : ∀ m ∈ ms, ∀ f ∈ splitOnStr (normalizePlus m.2) " + ",
      (pysplit f).length = 3 ∨ (pysplit f).length = 1)
    (cur cur' : Option (String × String × String)) :
    extractLoop cur ms = extractLoop cur' ms := by
  induction ms generalizing cur cur' with
  | nil => rfl
  | cons m ms ih =>
    obtain ⟨pre, g2⟩ := m
    have hrest : ∀ m ∈ ms, ∀ f ∈ splitOnStr (normalizePlus m.2) " + ",
        (pysplit f).length = 3 ∨ (pysplit f).length = 1 :=
      fun m hm => hgood m (List.mem_cons_of_mem _ hm)
    rcases hseq : splitOnStr (normalizePlus g2) " + " with _ | ⟨f, fs⟩
    · simp only [extractLoop, hseq, procSeq]
      rw [ih hrest cur cur']
    · have hf : (pysplit f).length = 3 ∨ (pysplit f).length = 1 :=
        hgood (pre, g2) (List.mem_cons_self _ _) f (by rw [hseq]; exact List.mem_cons_self _ _)
      simp only [extractLoop, hseq]
      rw [procSeq_indep pre "0" "X" f fs hf cur cur']

/-- C2: the title with a plus-joined bare number yields the two identifiers
with the year and series inherited from the full triple of the same match; a
second match in the same title restarts from its own triple (the TAS example),
and, whenever every fragment of every match is a full triple or a bare number,
the result of the match loop does not depend on the bindings left by earlier
matches or titles: the carry-over state is reset per regex match. -/
theorem c2_carry_over :
    extract_decisions_and_cases "CAS 2020 ABC 123 + 456" =
      Except.ok ["CAS 2020 ABC 123", "CAS 2020 ABC 456"] ∧
    extract_decisions_and_cases "CAS 2020 ABC 123 TAS 1999 K 7 + 8" =
      Except.ok ["CAS 2020 ABC 123", "TAS 1999 K 7", "TAS 1999 K 8"] ∧
    ∀ (ms : List (String × String)) (cur cur' : Option (String × String × String)),
      (∀ m ∈ ms, ∀ f ∈ splitOnStr (normalizePlus m.2) " + ",
        (pysplit f).length = 3 ∨ (pysplit f).length = 1) →
      extractLoop cur ms = extractLoop cur' ms :=
  ⟨rfl, rfl, fun ms cur cur' h => extractLoop_indep ms h cur cur'⟩

theorem c2_carry_over_witness :
    extractLoop none [("CAS", "2020 ABC 123 + 456")] =
      extractLoop (some ("1900", "ZZ", "9")) [("CAS", "2020 ABC 123 + 456")] :=
  c2_carry_over.2.2 [("CAS", "2020 ABC 123 + 456")] none (some ("1900", "ZZ", "9")) (by decide)

/-! ### Claim C8 about parse misses -/

theorem colIndex_lt (cols : List String) (c : String) :
    ∀ i, colIndex cols c = some i → i < cols.length := by
  induction cols with
  | nil => intro i h; exact Option.noConfusion h
  | cons x xs ih =>
    intro i h
    simp only [colIndex] at h
    by_cases hx : x = c
    · rw [if_pos hx] at h
      cases h
      simp
    · rw [if_neg hx] at h
      rcases hj : colIndex xs c with _ | j
      · rw [hj] at h
        exact Option.noConfusion h
      · rw [hj] at h
        have hji : j + 1 = i := by simpa using h
        have := ih j hj
        simp only [List.length_cons]
        omega

theorem colIndex_append_of_none (cols : List String) (c : String)
    (h : colIndex cols c = none) : colIndex (cols ++ [c]) c = some cols.length := by
  induction cols with
  | nil => simp [colIndex]
  | cons x xs ih =>
    simp only [colIndex] at h
    by_cases hx : x = c
    · rw [if_pos hx] at h
      cases h
    · rw [if_neg hx] at h
      have hxs : colIndex xs c = none := by
        rcases hj : colIndex xs c with _ | j
        · rfl
        · rw [hj] at h
          simp at h
      rw [List.cons_append]
      simp only [colIndex, if_neg hx]
      rw [ih hxs]
      rfl

theorem getD_set_self {α} (l : List α) (i : Nat) (a d : α) (h : i < l.length) :
    (l.set i a).getD i d = a := by
  rw [List.getD_eq_getElem _ _ (by simpa using h)]
  simp

theorem getD_append_self {α} (l : List α) (a d : α) : (l ++ [a]).getD l.length d = a := by
  induction l with
  | nil => rfl
  | cons x t ih => simp [ih]

/-- C8 (amended): a title in which the decision pattern matches nowhere yields
the empty identifier sequence without an error; and over a frame of string
titles in which at least one row yields a case number, extract_and_write
succeeds, keeps every record, and writes exactly the extracted case numbers
(null for every miss) as the Case Number column. A batch in which every record
misses is the exception: there the isnull().all() check raises and the batch
is aborted, so per-record misses only never abort when some record matches. -/
theorem c8_parse_miss_retention :
    (∀ title : String, findall title = [] →
      extract_decisions_and_cases title = Except.ok []) ∧
    (∀ df : DataFrame,
      (∀ r ∈ df.rows, r.length = df.cols.length) →
      (∀ r ∈ df.rows, isStrCell (r.headD Cell.na) = true) →
      ¬(∀ c ∈ caseNumbersOf df, c = Cell.na) →
      ∃ out, extract_and_write_case_number df = Except.ok out ∧
        out.rows.length = df.rows.length ∧
        out.rows.map (fun r => out.cellD r "Case Number") = caseNumbersOf df) := by
  constructor
  · intro title h
    unfold extract_decisions_and_cases
    rw [h]
    rfl
  · intro df hw hs hnot
    have hall : df.rows.all (fun r => isStrCell (r.headD Cell.na)) = true := by
      rw [List.all_eq_true]
      intro r hr
      simpa using hs r hr
    have hnotall : (caseNumbersOf df).all (fun c => decide (c = Cell.na)) = false := by
      rcases hb : (caseNumbersOf df).all (fun c => decide (c = Cell.na)) with _ | _
      · rfl
      · exact absurd (fun c hc => by simpa using List.all_eq_true.mp hb c hc) hnot
    have hvlen : (caseNumbersOf df).length = df.rows.length := by
      simp [caseNumbersOf]
    have key : extract_and_write_case_number df =
        Except.ok (df.setColumn "Case Number" (caseNumbersOf df)) := by
      simp only [extract_and_write_case_number, hall, hnotall]
      simp
    refine ⟨_, key, ?_, ?_⟩ <;>
      rcases hcol : colIndex df.cols "Case Number" with _ | idx <;>
        simp only [DataFrame.setColumn, hcol]
    · simp [List.length_zip, hvlen]
    · simp [List.length_zip, hvlen]
    · rw [List.map_map]
      have hmc : ∀ p ∈ df.rows.zip (caseNumbersOf df),
          ((fun r => DataFrame.cellD ⟨df.cols ++ ["Case Number"],
              (df.rows.zip (caseNumbersOf df)).map (fun p => p.1 ++ [p.2])⟩ r "Case Number") ∘
            fun p => p.1 ++ [p.2]) p = p.2 := by
        intro p hp
        have hp1 := (List.of_mem_zip hp).1
        simp only [Function.comp_apply, DataFrame.cellD, colIndex_append_of_none df.cols _ hcol]
        rw [← hw p.1 hp1]
        exact getD_append_self p.1 p.2 Cell.na
      rw [List.map_congr_left hmc]
      exact List.map_snd_zip _ _ (le_of_eq hvlen)
    · rw [List.map_map]
      have hmc : ∀ p ∈ df.rows.zip (caseNumbersOf df),
          ((fun r => DataFrame.cellD ⟨df.cols,
              (df.rows.zip (caseNumbersOf df)).map (fun p => p.1.set idx p.2)⟩ r "Case Number") ∘
            fun p => p.1.set idx p.2) p = p.2 := by
        intro p hp
        have hp1 := (List.of_mem_zip hp).1
        have hidx : idx < p.1.length := by
          rw [hw p.1 hp1]
          exact colIndex_lt df.cols "Case Number" idx hcol
        simp only [Function.comp_apply, DataFrame.cellD, hcol]
        exact getD_set_self p.1 idx p.2 Cell.na hidx
      rw [List.map_congr_left hmc]
      exact List.map_snd_zip _ _ (le_of_eq hvlen)

/-- C8, counterexample to the claim as stated: a one-record batch whose title
matches no pattern is aborted with ValueError by extract_and_write_case_number
instead of being retained with a null case number. -/
theorem c8_all_miss_aborts :
    extract_and_write_case_number ⟨["Filename"], [[Cell.str "hello"]]⟩ =
      Except.error "No case numbers matching the pattern were found." := by
  rfl

theorem c8_parse_miss_retention_witness :
    extract_decisions_and_cases "no reference here" = Except.ok [] ∧
    ∃ out, extract_and_write_case_number
        ⟨["Filename"], [[Cell.str "f (CAS 2020 A 1) x"], [Cell.str "hello"]]⟩ = Except.ok out ∧
      out.rows.length = 2 ∧
      out.rows.map (fun r => out.cellD r "Case Number") =
        caseNumbersOf ⟨["Filename"], [[Cell.str "f (CAS 2020 A 1) x"], [Cell.str "hello"]]⟩ :=
  ⟨c8_parse_miss_retention.1 "no reference here" (by decide),
   c8_parse_miss_retention.2 ⟨["Filename"], [[Cell.str "f (CAS 2020 A 1) x"], [Cell.str "hello"]]⟩
     (by decide) (by decide) (by decide)⟩

/-! ### Claim C5 about the partitioning of main.py -/

theorem isinVal_filter_fname (df : DataFrame) (pat : String) (r : List Cell)
    (hr : r ∈ df.rows) :
    isinVal ((df.rows.filter (fun x => cellContainsCS (df.cellD x "Filename") pat)).map
        (fun x => df.cellD x "Filename")) (df.cellD r "Filename") =
      cellContainsCS (df.cellD r "Filename") pat := by
  by_cases h : cellContainsCS (df.cellD r "Filename") pat = true
  · rw [h]
    simp only [isinVal]
    apply List.any_eq_true.mpr
    exact ⟨df.cellD r "Filename",
      List.mem_map.mpr ⟨r, List.mem_filter.mpr ⟨hr, h⟩, rfl⟩, by simp⟩
  · have h0 : cellContainsCS (df.cellD r "Filename") pat = false := by
      simpa using h
    rw [h0]
    rcases hb : isinVal ((df.rows.filter
        (fun x => cellContainsCS (df.cellD x "Filename") pat)).map
        (fun x => df.cellD x "Filename")) (df.cellD r "Filename") with _ | _
    · rfl
    · exfalso
      simp only [isinVal] at hb
      rcases List.any_eq_true.mp hb with ⟨v, hv, hveq⟩
      rcases List.mem_map.mp hv with ⟨x, hx, hxv⟩
      have hxp := (List.mem_filter.mp hx).2
      have hvv : v = df.cellD r "Filename" := by simpa using hveq
      rw [hxv, hvv] at hxp
      rw [hxp] at h0
      exact Bool.noConfusion h0

theorem mem_subset_3_iff (df : DataFrame) (r : List Cell) (hr : r ∈ df.rows) :
    r ∈ subset_3 df ↔
      (cellContainsCS (df.cellD r "Filename") "[CAS Web Archives]" = false ∧
       cellContainsCS (df.cellD r "Filename") "CAS Bull" = false) := by
  unfold subset_3
  rw [List.mem_filter]
  unfold subset_1 subset_2
  rw [isinVal_filter_fname df "[CAS Web Archives]" r hr,
    isinVal_filter_fname df "CAS Bull" r hr]
  constructor
  · intro h
    have h2 := h.2
    simp only [Bool.and_eq_true, Bool.not_eq_eq_eq_not, Bool.not_true] at h2
    exact h2
  · intro h
    refine ⟨hr, ?_⟩
    simp only [Bool.and_eq_true, Bool.not_eq_eq_eq_not, Bool.not_true]
    exact h

theorem filter3_perm {α} (l : List α) (p q s : α → Bool)
    (h : ∀ x ∈ l, (p x = true ∧ q x = false ∧ s x = false) ∨
      (p x = false ∧ q x = true ∧ s x = false) ∨
      (p x = false ∧ q x = false ∧ s x = true)) :
    (l.filter p ++ l.filter q ++ l.filter s).Perm l := by
  induction l with
  | nil => simp
  | cons a t ih =>
    have ht : ∀ x ∈ t, (p x = true ∧ q x = false ∧ s x = false) ∨
        (p x = false ∧ q x = true ∧ s x = false) ∨
        (p x = false ∧ q x = false ∧ s x = true) :=
      fun x hx => h x (List.mem_cons_of_mem a hx)
    rcases h a (List.mem_cons_self a t) with ⟨h1, h2, h3⟩ | ⟨h1, h2, h3⟩ | ⟨h1, h2, h3⟩
    · rw [List.filter_cons_of_pos h1, List.filter_cons_of_neg (by simp [h2]),
        List.filter_cons_of_neg (by simp [h3])]
      rw [List.cons_append, List.cons_append]
      exact List.Perm.cons a (ih ht)
    · rw [List.filter_cons_of_neg (by simp [h1]), List.filter_cons_of_pos h2,
        List.filter_cons_of_neg (by simp [h3])]
      have hshape : t.filter p ++ (a :: t.filter q) ++ t.filter s =
          t.filter p ++ a :: (t.filter q ++ t.filter s) := by
        simp [List.append_assoc]
      rw [hshape]
      refine List.Perm.trans List.perm_middle ?_
      refine List.Perm.cons a ?_
      rw [← List.append_assoc]
      exact ih ht
    · rw [List.filter_cons_of_neg (by simp [h1]), List.filter_cons_of_neg (by simp [h2]),
        List.filter_cons_of_pos h3]
      refine List.Perm.trans List.perm_middle ?_
      exact List.Perm.cons a (ih ht)

/-- C5 (amended): over a frame of string filenames, every record lands in at
least one of subset_1, subset_2 and the residual subset_3; a record is in the
residual subset_3 exactly when its filename matches neither named predicate;
and when no filename matches both named predicates the three subsets together
are a permutation of the input rows (no duplicates, no omissions). A record
whose filename matches both predicates is placed in both named partitions, so
membership in at most one named partition only holds under that proviso. -/
theorem c5_partition_properties (df : DataFrame)
    (_hstr : ∀ r ∈ df.rows, isStrCell (df.cellD r "Filename") = true) :
    (∀ r ∈ df.rows, r ∈ subset_1 df ∨ r ∈ subset_2 df ∨ r ∈ subset_3 df) ∧
    (∀ r ∈ df.rows, (r ∈ subset_3 df ↔
      (cellContainsCS (df.cellD r "Filename") "[CAS Web Archives]" = false ∧
       cellContainsCS (df.cellD r "Filename") "CAS Bull" = false))) ∧
    ((∀ r ∈ df.rows, ¬(cellContainsCS (df.cellD r "Filename") "[CAS Web Archives]" = true ∧
        cellContainsCS (df.cellD r "Filename") "CAS Bull" = true)) →
      (subset_1 df ++ subset_2 df ++ subset_3 df).Perm df.rows) := by
  refine ⟨?_, fun r hr => mem_subset_3_iff df r hr, ?_⟩
  · intro r hr
    rcases hc1 : cellContainsCS (df.cellD r "Filename") "[CAS Web Archives]" with _ | _
    · rcases hc2 : cellContainsCS (df.cellD r "Filename") "CAS Bull" with _ | _
      · exact Or.inr (Or.inr ((mem_subset_3_iff df r hr).mpr ⟨hc1, hc2⟩))
      · exact Or.inr (Or.inl (List.mem_filter.mpr ⟨hr, hc2⟩))
    · exact Or.inl (List.mem_filter.mpr ⟨hr, hc1⟩)
  · intro hno
    unfold subset_3 subset_1 subset_2
    apply filter3_perm
    intro x hx
    rcases hc1 : cellContainsCS (df.cellD x "Filename") "[CAS Web Archives]" with _ | _
    · rcases hc2 : cellContainsCS (df.cellD x "Filename") "CAS Bull" with _ | _
      · refine Or.inr (Or.inr ⟨rfl, rfl, ?_⟩)
        rw [isinVal_filter_fname df "[CAS Web Archives]" x hx,
          isinVal_filter_fname df "CAS Bull" x hx, hc1, hc2]
        rfl
      · refine Or.inr (Or.inl ⟨rfl, rfl, ?_⟩)
        rw [isinVal_filter_fname df "[CAS Web Archives]" x hx,
          isinVal_filter_fname df "CAS Bull" x hx, hc1, hc2]
        rfl
    · have hc2 : cellContainsCS (df.cellD x "Filename") "CAS Bull" = false := by
        rcases hb : cellContainsCS (df.cellD x "Filename") "CAS Bull" with _ | _
        · rfl
        · exact absurd ⟨hc1, hb⟩ (hno x hx)
      refine Or.inl ⟨rfl, hc2, ?_⟩
      rw [isinVal_filter_fname df "[CAS Web Archives]" x hx,
        isinVal_filter_fname df "CAS Bull" x hx, hc1, hc2]
      rfl

/-- C5, counterexample to the claim as stated: a record whose filename
contains both named markers is a member of both subset_1 and subset_2, so it
does not belong to at most one named partition and the concatenation of the
partitions duplicates it. -/
theorem c5_overlapping_partitions :
    subset_1 ⟨["Filename"], [[Cell.str "[CAS Web Archives] CAS Bull x"]]⟩ =
      [[Cell.str "[CAS Web Archives] CAS Bull x"]] ∧
    subset_2 ⟨["Filename"], [[Cell.str "[CAS Web Archives] CAS Bull x"]]⟩ =
      [[Cell.str "[CAS Web Archives] CAS Bull x"]] := by
  exact ⟨rfl, rfl⟩

theorem c5_partition_properties_witness :
    (subset_1 ⟨["Filename"], [[Cell.str "a [CAS Web Archives] x"], [Cell.str "plain"]]⟩ ++
     subset_2 ⟨["Filename"], [[Cell.str "a [CAS Web Archives] x"], [Cell.str "plain"]]⟩ ++
     subset_3 ⟨["Filename"], [[Cell.str "a [CAS Web Archives] x"], [Cell.str "plain"]]⟩).Perm
      [[Cell.str "a [CAS Web Archives] x"], [Cell.str "plain"]] :=
  (c5_partition_properties ⟨["Filename"], [[Cell.str "a [CAS Web Archives] x"], [Cell.str "plain"]]⟩
    (by decide)).2.2 (by decide)

/-! ### Claim C7 about the cluster ordering -/

theorem charListLE_total : ∀ a b : List Char, charListLE a b = true ∨ charListLE b a = true
  | [], _ => Or.inl rfl
  | _ :: _, [] => Or.inr rfl
  | a :: as, b :: bs => by
    rcases lt_trichotomy a b with h | h | h
    · left
      simp [charListLE, h]
    · subst h
      have hred : ∀ t1 t2, charListLE (a :: t1) (a :: t2) = charListLE t1 t2 := by
        intro t1 t2
        simp [charListLE]
      rw [hred, hred]
      exact charListLE_total as bs
    · right
      simp [charListLE, h]

theorem charListLE_trans : ∀ a b c : List Char,
    charListLE a b = true → charListLE b c = true → charListLE a c = true
  | [], _, _ => fun _ _ => rfl
  | a :: as, [], c => fun h1 _ => by simp [charListLE] at h1
  | a :: as, b :: bs, [] => fun _ h2 => by simp [charListLE] at h2
  | a :: as, b :: bs, c :: cs => by
    intro h1 h2
    rcases lt_trichotomy a b with hab | hab | hab
    · rcases lt_trichotomy b c with hbc | hbc | hbc
      · simp [charListLE, lt_trans hab hbc]
      · subst hbc
        simp [charListLE, hab]
      · simp [charListLE, hbc, lt_asymm hbc] at h2
    · subst hab
      rcases lt_trichotomy a c with hac | hac | hac
      · simp [charListLE, hac]
      · subst hac
        simp only [charListLE, lt_self_iff_false, if_false] at h1 h2 ⊢
        exact charListLE_trans as bs cs h1 h2
      · simp [charListLE, hac, lt_asymm hac] at h2
    · simp [charListLE, hab, lt_asymm hab] at h1

theorem charListLE_antisymm : ∀ a b : List Char,
    charListLE a b = true → charListLE b a = true → a = b
  | [], [] => fun _ _ => rfl
  | [], _ :: _ => fun _ h2 => by simp [charListLE] at h2
  | _ :: _, [] => fun h1 _ => by simp [charListLE] at h1
  | a :: as, b :: bs => by
    intro h1 h2
    rcases lt_trichotomy a b with h | h | h
    · simp [charListLE, h, lt_asymm h] at h2
    · subst h
      simp only [charListLE, lt_self_iff_false, if_false] at h1 h2
      rw [charListLE_antisymm as bs h1 h2]
    · simp [charListLE, h, lt_asymm h] at h1

theorem optStrLE_total (a b : Option String) : optStrLE a b = true ∨ optStrLE b a = true := by
  rcases a with _ | x <;> rcases b with _ | y <;> simp [optStrLE]
  exact charListLE_total x.toList y.toList

theorem optStrLE_trans (a b c : Option String) (h1 : optStrLE a b = true)
    (h2 : optStrLE b c = true) : optStrLE a c = true := by
  rcases a with _ | x <;> rcases b with _ | y <;> rcases c with _ | z <;>
    simp [optStrLE] at h1 h2 ⊢
  exact charListLE_trans x.toList y.toList z.toList h1 h2

theorem optStrLE_antisymm (a b : Option String) (h1 : optStrLE a b = true)
    (h2 : optStrLE b a = true) : a = b := by
  rcases a with _ | x <;> rcases b with _ | y <;> simp [optStrLE] at h1 h2 ⊢
  have := charListLE_antisymm x.toList y.toList h1 h2
  cases x
  cases y
  simp only [String.toList] at this
  exact congrArg String.mk this

theorem optNatLT_trans (a b c : Option Nat) (h1 : optNatLT a b = true)
    (h2 : optNatLT b c = true) : optNatLT a c = true := by
  rcases a with _ | x <;> rcases b with _ | y <;> rcases c with _ | z <;>
    simp [optNatLT] at h1 h2 ⊢
  omega

theorem optNatLT_irrefl (a : Option Nat) : optNatLT a a = false := by
  rcases a with _ | x <;> simp [optNatLT]

theorem optNatLT_total_of_ne (a b : Option Nat) (h : a ≠ b) :
    optNatLT a b = true ∨ optNatLT b a = true := by
  rcases a with _ | x
  · rcases b with _ | y
    · exact absurd rfl h
    · right
      simp [optNatLT]
  · rcases b with _ | y
    · left
      simp [optNatLT]
    · have hxy : x ≠ y := fun hx => h (by rw [hx])
      simp only [optNatLT, decide_eq_true_eq]
      omega

theorem keyLE_total (a b : Option Nat × Option String) :
    keyLE a b = true ∨ keyLE b a = true := by
  by_cases h : a.1 = b.1
  · simp only [keyLE, h, if_pos rfl, if_pos h.symm]
    exact optStrLE_total a.2 b.2
  · have hba : ¬b.1 = a.1 := fun hx => h hx.symm
    simp only [keyLE, if_neg h, if_neg hba]
    exact optNatLT_total_of_ne a.1 b.1 h

theorem keyLE_trans (a b c : Option Nat × Option String) (h1 : keyLE a b = true)
    (h2 : keyLE b c = true) : keyLE a c = true := by
  by_cases hab : a.1 = b.1 <;> by_cases hbc : b.1 = c.1
  · have hac : a.1 = c.1 := hab.trans hbc
    rw [keyLE, if_pos hab] at h1
    rw [keyLE, if_pos hbc] at h2
    rw [keyLE, if_pos hac]
    exact optStrLE_trans a.2 b.2 c.2 h1 h2
  · have hac : ¬a.1 = c.1 := fun h => hbc (hab.symm.trans h)
    rw [keyLE, if_neg hbc] at h2
    rw [keyLE, if_neg hac, hab]
    exact h2
  · have hac : ¬a.1 = c.1 := fun h => hab (h.trans hbc.symm)
    rw [keyLE, if_neg hab] at h1
    rw [keyLE, if_neg hac, ← hbc]
    exact h1
  · rw [keyLE, if_neg hab] at h1
    rw [keyLE, if_neg hbc] at h2
    have hlt := optNatLT_trans a.1 b.1 c.1 h1 h2
    by_cases hac : a.1 = c.1
    · rw [hac, optNatLT_irrefl] at hlt
      exact Bool.noConfusion hlt
    · rw [keyLE, if_neg hac]
      exact hlt

theorem keyLE_antisymm (a b : Option Nat × Option String) (h1 : keyLE a b = true)
    (h2 : keyLE b a = true) : a = b := by
  by_cases hab : a.1 = b.1
  · rw [keyLE, if_pos hab] at h1
    rw [keyLE, if_pos hab.symm] at h2
    have h2nd := optStrLE_antisymm a.2 b.2 h1 h2
    exact Prod.ext hab h2nd
  · rw [keyLE, if_neg hab] at h1
    rw [keyLE, if_neg (fun h => hab h.symm)] at h2
    have := optNatLT_trans a.1 b.1 a.1 h1 h2
    rw [optNatLT_irrefl] at this
    exact Bool.noConfusion this

theorem rowLE_total (df : DataFrame) : ∀ r1 r2, rowLE df r1 r2 ∨ rowLE df r2 r1 :=
  fun r1 r2 => keyLE_total (properKey df r1) (properKey df r2)

theorem rowLE_trans (df : DataFrame) : ∀ r1 r2 r3,
    rowLE df r1 r2 → rowLE df r2 r3 → rowLE df r1 r3 :=
  fun r1 r2 r3 h1 h2 => keyLE_trans (properKey df r1) (properKey df r2) (properKey df r3) h1 h2

/-- C7 (amended): when both required columns are present, the cluster ordering
succeeds, keeps the column list, permutes the rows, and sorts them by the
(year of Extracted dates, last six characters of Case Number) key ascending
with missing values last; consequently any two records with equal year AND
equal cluster key end up in one contiguous block. Two records with equal
cluster keys but different years are not adjacent in general, because the sort
groups by year first. -/
theorem c7_sort_by_year_then_cluster (df : DataFrame)
    (h1 : colIndex df.cols "Extracted dates" ≠ none)
    (h2 : colIndex df.cols "Case Number" ≠ none) :
    ∃ out, proper_ordering_cases_by_case_number df = Except.ok out ∧
      out.cols = df.cols ∧
      out.rows.Perm df.rows ∧
      (∀ i, i + 1 < out.rows.length →
        keyLE (properKey df (out.rows.getD i []))
          (properKey df (out.rows.getD (i + 1) [])) = true) ∧
      (∀ i j k, i ≤ j → j ≤ k → k < out.rows.length →
        properKey df (out.rows.getD i []) = properKey df (out.rows.getD k []) →
        properKey df (out.rows.getD j []) = properKey df (out.rows.getD i [])) := by
  have e1 : (colIndex df.cols "Extracted dates").isNone = false := by
    rcases hx : colIndex df.cols "Extracted dates" with _ | v
    · exact absurd hx h1
    · rfl
  have e2 : (colIndex df.cols "Case Number").isNone = false := by
    rcases hx : colIndex df.cols "Case Number" with _ | v
    · exact absurd hx h2
    · rfl
  have key : proper_ordering_cases_by_case_number df =
      Except.ok ⟨df.cols, List.insertionSort (rowLE df) df.rows⟩ := by
    simp [proper_ordering_cases_by_case_number, e1, e2]
  haveI htot : IsTotal (List Cell) (rowLE df) := ⟨rowLE_total df⟩
  haveI htr : IsTrans (List Cell) (rowLE df) := ⟨rowLE_trans df⟩
  have hsort : List.Sorted (rowLE df) (List.insertionSort (rowLE df) df.rows) :=
    List.sorted_insertionSort (rowLE df) df.rows
  have hpair := List.pairwise_iff_get.mp hsort
  refine ⟨_, key, rfl, List.perm_insertionSort (rowLE df) df.rows, ?_, ?_⟩
  · intro i hi
    have hi0 : i < (List.insertionSort (rowLE df) df.rows).length := Nat.lt_of_succ_lt hi
    have hrel := hpair ⟨i, hi0⟩ ⟨i + 1, hi⟩ (by simp)
    rw [List.getD_eq_getElem _ _ hi0, List.getD_eq_getElem _ _ hi]
    simpa [rowLE, List.get_eq_getElem] using hrel
  · intro i j k hij hjk hk hik
    have hj : j < (List.insertionSort (rowLE df) df.rows).length := lt_of_le_of_lt hjk hk
    have hi : i < (List.insertionSort (rowLE df) df.rows).length := lt_of_le_of_lt hij hj
    rcases eq_or_lt_of_le hij with rfl | hij2
    · rfl
    rcases eq_or_lt_of_le hjk with rfl | hjk2
    · exact hik.symm
    have hkij := hpair ⟨i, hi⟩ ⟨j, hj⟩ hij2
    have hkjk := hpair ⟨j, hj⟩ ⟨k, hk⟩ hjk2
    rw [List.getD_eq_getElem _ _ hi, List.getD_eq_getElem _ _ hk] at hik
    rw [List.getD_eq_getElem _ _ hj, List.getD_eq_getElem _ _ hi]
    simp only [rowLE, List.get_eq_getElem] at hkij hkjk
    rw [← hik] at hkjk
    exact keyLE_antisymm _ _ hkjk hkij

/-- C7, counterexample to the claim as stated: three records sorted by the
engine where the first and the third share the cluster key BC 123 but carry
different years; the middle record with key AA 111 separates them, so equal
cluster keys are not adjacent after the sort. -/
theorem c7_equal_clusters_not_adjacent :
    proper_ordering_cases_by_case_number ⟨["Extracted dates", "Case Number"],
        [[Cell.date 2019 1 1, Cell.str "BC 123"], [Cell.date 2020 1 1, Cell.str "AA 111"],
         [Cell.date 2021 1 1, Cell.str "BC 123"]]⟩ =
      Except.ok ⟨["Extracted dates", "Case Number"],
        [[Cell.date 2019 1 1, Cell.str "BC 123"], [Cell.date 2020 1 1, Cell.str "AA 111"],
         [Cell.date 2021 1 1, Cell.str "BC 123"]]⟩ ∧
    shortCaseKey (Cell.str "AA 111") ≠ shortCaseKey (Cell.str "BC 123") := by
  constructor
  · rfl
  · decide

theorem c7_sort_by_year_then_cluster_witness :
    ∃ out, proper_ordering_cases_by_case_number ⟨["Extracted dates", "Case Number"],
        [[Cell.date 2021 1 1, Cell.str "BC 123"], [Cell.date 2019 1 1, Cell.str "BC 123"],
         [Cell.date 2020 1 1, Cell.str "AA 111"], [Cell.na, Cell.str "AA 111"]]⟩ =
        Except.ok out ∧
      out.cols = ["Extracted dates", "Case Number"] ∧
      out.rows.Perm [[Cell.date 2021 1 1, Cell.str "BC 123"], [Cell.date 2019 1 1, Cell.str "BC 123"],
         [Cell.date 2020 1 1, Cell.str "AA 111"], [Cell.na, Cell.str "AA 111"]] ∧
      (∀ i, i + 1 < out.rows.length →
        keyLE (properKey ⟨["Extracted dates", "Case Number"],
            [[Cell.date 2021 1 1, Cell.str "BC 123"], [Cell.date 2019 1 1, Cell.str "BC 123"],
             [Cell.date 2020 1 1, Cell.str "AA 111"], [Cell.na, Cell.str "AA 111"]]⟩
            (out.rows.getD i []))
          (properKey ⟨["Extracted dates", "Case Number"],
            [[Cell.date 2021 1 1, Cell.str "BC 123"], [Cell.date 2019 1 1, Cell.str "BC 123"],
             [Cell.date 2020 1 1, Cell.str "AA 111"], [Cell.na, Cell.str "AA 111"]]⟩
            (out.rows.getD (i + 1) [])) = true) ∧
      (∀ i j k, i ≤ j → j ≤ k → k < out.rows.length →
        properKey ⟨["Extracted dates", "Case Number"],
            [[Cell.date 2021 1 1, Cell.str "BC 123"], [Cell.date 2019 1 1, Cell.str "BC 123"],
             [Cell.date 2020 1 1, Cell.str "AA 111"], [Cell.na, Cell.str "AA 111"]]⟩
            (out.rows.getD i []) =
          properKey ⟨["Extracted dates", "Case Number"],
            [[Cell.date 2021 1 1, Cell.str "BC 123"], [Cell.date 2019 1 1, Cell.str "BC 123"],
             [Cell.date 2020 1 1, Cell.str "AA 111"], [Cell.na, Cell.str "AA 111"]]⟩
            (out.rows.getD k []) →
        properKey ⟨["Extracted dates", "Case Number"],
            [[Cell.date 2021 1 1, Cell.str "BC 123"], [Cell.date 2019 1 1, Cell.str "BC 123"],
             [Cell.date 2020 1 1, Cell.str "AA 111"], [Cell.na, Cell.str "AA 111"]]⟩
            (out.rows.getD j []) =
          properKey ⟨["Extracted dates", "Case Number"],
            [[Cell.date 2021 1 1, Cell.str "BC 123"], [Cell.date 2019 1 1, Cell.str "BC 123"],
             [Cell.date 2020 1 1, Cell.str "AA 111"], [Cell.na, Cell.str "AA 111"]]⟩
            (out.rows.getD i [])) :=
  c7_sort_by_year_then_cluster ⟨["Extracted dates", "Case Number"],
      [[Cell.date 2021 1 1, Cell.str "BC 123"], [Cell.date 2019 1 1, Cell.str "BC 123"],
       [Cell.date 2020 1 1, Cell.str "AA 111"], [Cell.na, Cell.str "AA 111"]]⟩
    (by decide) (by decide)
